import Mathlib

/-!
Shallow embedding of the Linera tic-tac-toe backend
(`src/linera-tic-tac-toe/CORRECT_DEPLOYMENT.md`, the embedded
`backend/server.js`): the `TicTacToeGame` class (constructor, `addPlayer`,
`makeMove`, `checkWinner`, `getState`) and the Express route handlers, plus
theorems settling the specification claims about them.

Conventions of the embedding:
- JS `null` board cells are `Option.none`; marks `'X'`/`'O'` are `Mark.X`/`Mark.O`.
- A JS array read `board[position]` yields `undefined` out of range and the
  stored value in range; we model it as `jsGet : List (Option Mark) → Int →
  Option (Option Mark)` (`none` = `undefined`, `some none` = `null` cell,
  `some (some m)` = mark `m`).
- `Date` timestamps are `Nat`.
- Methods returning JS `true`/`false` and mutating `this` become functions
  returning `Bool × TicTacToeGame`.
-/

/-- A player's symbol: `'X'` or `'O'`. -/
inductive Mark where
  | X
  | O
deriving DecidableEq, Repr

/-- The toggle `currentPlayer === 'X' ? 'O' : 'X'`. -/
def Mark.other : Mark → Mark
  | .X => .O
  | .O => .X

/-- The `status` field: `'waiting'`, `'playing'`, `'finished'`. -/
inductive Status where
  | waiting
  | playing
  | finished
deriving DecidableEq, Repr

/-- The non-null values of the `winner` field: a winning mark or `'draw'`. -/
inductive Outcome where
  | winner (m : Mark)
  | draw
deriving DecidableEq, Repr

/-- An entry of the `players` array: `{ id: playerId, name: playerName, symbol }`. -/
structure Player where
  id : String
  name : String
  symbol : Mark
deriving DecidableEq, Repr

/-- The fields of the `TicTacToeGame` class as set in its constructor. -/
structure TicTacToeGame where
  id : String
  board : List (Option Mark)
  currentPlayer : Mark
  players : List Player
  status : Status
  winner : Option Outcome
  createdAt : Nat
deriving DecidableEq, Repr

/-- The constructor `new TicTacToeGame(gameId)`: empty 9-cell board,
`currentPlayer = 'X'`, no players, status `'waiting'`, no winner, `createdAt`
stamped with the current time (passed explicitly here). -/
def TicTacToeGame.new (gameId : String) (now : Nat) : TicTacToeGame where
  id := gameId
  board := List.replicate 9 none
  currentPlayer := .X
  players := []
  status := .waiting
  winner := none
  createdAt := now

/-- JS indexed read `board[i]`: `undefined` (`none`) when `i` is out of range,
otherwise the stored cell. -/
def jsGet (board : List (Option Mark)) (i : Int) : Option (Option Mark) :=
  if 0 ≤ i then board[i.toNat]? else none

/-- `addPlayer(playerId, playerName)`: if fewer than 2 players, append a player
with symbol `'X'` for the first joiner and `'O'` for the second, switch status
to `'playing'` when reaching 2 players, and return `true`; otherwise return
`false` without mutating. -/
def TicTacToeGame.addPlayer (g : TicTacToeGame) (playerId playerName : String) :
    Bool × TicTacToeGame :=
  if g.players.length < 2 then
    let symbol : Mark := if g.players.length = 0 then .X else .O
    let players := g.players ++ [⟨playerId, playerName, symbol⟩]
    let status := if players.length = 2 then Status.playing else g.status
    (true, { g with players := players, status := status })
  else
    (false, g)

/-- The `winPatterns` array of `checkWinner`: 3 rows, 3 columns, 2 diagonals. -/
def winPatterns : List (Nat × Nat × Nat) :=
  [(0, 1, 2), (3, 4, 5), (6, 7, 8),
   (0, 3, 6), (1, 4, 7), (2, 5, 8),
   (0, 4, 8), (2, 4, 6)]

/-- `checkWinner()`: some pattern `[a, b, c]` has `board[a]` truthy (a mark) and
`board[a] === board[b]` and `board[a] === board[c]`. The method reads
`this.board`; it is passed explicitly here. -/
def checkWinner (board : List (Option Mark)) : Bool :=
  winPatterns.any fun pat =>
    match board.getD pat.1 none with
    | some m => (board.getD pat.2.1 none == some m) && (board.getD pat.2.2 none == some m)
    | none => false

/-- `makeMove(playerId, position)`: reject (`false`, no mutation) unless status
is `'playing'`, `board[position] === null`, and the player found by id has
`symbol === currentPlayer`; otherwise write the mark, then either finish with
that mark as winner, finish as a draw when the board is full, or toggle
`currentPlayer`. -/
def TicTacToeGame.makeMove (g : TicTacToeGame) (playerId : String) (position : Int) :
    Bool × TicTacToeGame :=
  if g.status ≠ Status.playing then (false, g)
  else if jsGet g.board position ≠ some none then (false, g)
  else
    match g.players.find? (fun p => p.id == playerId) with
    | none => (false, g)
    | some player =>
      if player.symbol ≠ g.currentPlayer then (false, g)
      else
        let board := g.board.set position.toNat (some g.currentPlayer)
        if checkWinner board then
          (true, { g with board := board, winner := some (.winner g.currentPlayer),
                          status := .finished })
        else if board.all (fun c => c.isSome) then
          (true, { g with board := board, status := .finished, winner := some .draw })
        else
          (true, { g with board := board, currentPlayer := g.currentPlayer.other })

/-- The object returned by `getState()`. -/
structure GameState where
  id : String
  board : List (Option Mark)
  currentPlayer : Mark
  players : List Player
  status : Status
  winner : Option Outcome
  createdAt : Nat
deriving DecidableEq, Repr

/-- `getState()`: the full snapshot sent to clients. -/
def TicTacToeGame.getState (g : TicTacToeGame) : GameState :=
  ⟨g.id, g.board, g.currentPlayer, g.players, g.status, g.winner, g.createdAt⟩

/-- The property keys of the object literal returned by `getState()`. -/
def GameState.keys : List String :=
  ["id", "board", "currentPlayer", "players", "status", "winner", "createdAt"]

/-- `games.set(gameId, game)` on the JS `Map`: overwrite in place if the key is
present, else append in insertion order. -/
def mapSet (games : List (String × TicTacToeGame)) (k : String) (v : TicTacToeGame) :
    List (String × TicTacToeGame) :=
  if games.any (fun kv => kv.1 == k) then
    games.map (fun kv => if kv.1 == k then (k, v) else kv)
  else games ++ [(k, v)]

/-- The handler `app.post('/api/games')`: generate an id (passed explicitly),
construct a fresh game, store it, and respond with its snapshot. The request
body (`participantId`, `displayName` of the creator) is never read by the
handler. -/
def postCreateGame (games : List (String × TicTacToeGame)) (gameId : String)
    (participantId displayName : String) (now : Nat) :
    List (String × TicTacToeGame) × GameState :=
  let _ := participantId
  let _ := displayName
  let game := TicTacToeGame.new gameId now
  (mapSet games gameId game, game.getState)

/-- A client operation against one stored session: the bodies of
`app.post('/api/games/:gameId/join')` and `app.post('/api/games/:gameId/move')`
apply `addPlayer` / `makeMove` to the looked-up game and keep the resulting
state whether or not the operation succeeded (a rejected operation returns the
game unchanged). -/
inductive Op where
  | join (playerId playerName : String)
  | move (playerId : String) (position : Int)

/-- Effect of one operation on a session. -/
def applyOp (g : TicTacToeGame) : Op → TicTacToeGame
  | .join pid pname => (g.addPlayer pid pname).2
  | .move pid pos => (g.makeMove pid pos).2

/-- Effect of a sequence of operations on a session. -/
def runOps (g : TicTacToeGame) (ops : List Op) : TicTacToeGame :=
  ops.foldl applyOp g

/-- The state update performed by an accepted `makeMove`. -/
def moveUpdate (g : TicTacToeGame) (pos : Int) : TicTacToeGame :=
  let board := g.board.set pos.toNat (some g.currentPlayer)
  if checkWinner board then
    { g with board := board, winner := some (.winner g.currentPlayer), status := .finished }
  else if board.all (fun c => c.isSome) then
    { g with board := board, status := .finished, winner := some .draw }
  else
    { g with board := board, currentPlayer := g.currentPlayer.other }

/-- The acceptance condition of `makeMove`. -/
def moveOk (g : TicTacToeGame) (pid : String) (pos : Int) : Prop :=
  g.status = Status.playing ∧ jsGet g.board pos = some none ∧
    (g.players.find? fun p => p.id == pid).map Player.symbol = some g.currentPlayer

instance (g : TicTacToeGame) (pid : String) (pos : Int) : Decidable (moveOk g pid pos) := by
  unfold moveOk; infer_instance

lemma makeMove_eq (g : TicTacToeGame) (pid : String) (pos : Int) :
    g.makeMove pid pos =
      if moveOk g pid pos then (true, moveUpdate g pos) else (false, g) := by
  by_cases hok : moveOk g pid pos
  · rw [if_pos hok]
    obtain ⟨h1, h2, h3⟩ := hok
    obtain ⟨player, hf, hsym⟩ := Option.map_eq_some'.mp h3
    unfold TicTacToeGame.makeMove moveUpdate
    simp only [h1, h2, hf, hsym, ne_eq, not_true_eq_false, if_false, ite_false]
    split
    · rfl
    · split <;> rfl
  · rw [if_neg hok]
    unfold TicTacToeGame.makeMove
    by_cases h1 : g.status = Status.playing
    · by_cases h2 : jsGet g.board pos = some none
      · cases hf : g.players.find? fun p => p.id == pid with
        | none => simp [h1, h2, hf]
        | some player =>
          have h3 : player.symbol ≠ g.currentPlayer := by
            intro hsym
            exact hok ⟨h1, h2, by simp [hf, hsym]⟩
          simp [h1, h2, hf, h3]
      · simp [h1, h2]
    · simp [h1]

lemma makeMove_rejected (g : TicTacToeGame) (pid : String) (pos : Int)
    (h : ¬moveOk g pid pos) : g.makeMove pid pos = (false, g) := by
  rw [makeMove_eq, if_neg h]

lemma makeMove_accepted (g : TicTacToeGame) (pid : String) (pos : Int)
    (h : moveOk g pid pos) : g.makeMove pid pos = (true, moveUpdate g pos) := by
  rw [makeMove_eq, if_pos h]

lemma makeMove_fst_true_iff (g : TicTacToeGame) (pid : String) (pos : Int) :
    (g.makeMove pid pos).1 = true ↔ moveOk g pid pos := by
  rw [makeMove_eq]
  by_cases h : moveOk g pid pos <;> simp [h]

lemma makeMove_fst_false_iff (g : TicTacToeGame) (pid : String) (pos : Int) :
    (g.makeMove pid pos).1 = false ↔ ¬moveOk g pid pos := by
  rw [makeMove_eq]
  by_cases h : moveOk g pid pos <;> simp [h]

lemma makeMove_snd_of_rejected (g : TicTacToeGame) (pid : String) (pos : Int)
    (h : (g.makeMove pid pos).1 = false) : (g.makeMove pid pos).2 = g := by
  rw [makeMove_eq]
  rw [makeMove_fst_false_iff] at h
  rw [if_neg h]

lemma makeMove_snd_of_accepted (g : TicTacToeGame) (pid : String) (pos : Int)
    (h : (g.makeMove pid pos).1 = true) : (g.makeMove pid pos).2 = moveUpdate g pos := by
  rw [makeMove_fst_true_iff] at h
  rw [makeMove_eq, if_pos h]

lemma moveUpdate_board (g : TicTacToeGame) (pos : Int) :
    (moveUpdate g pos).board = g.board.set pos.toNat (some g.currentPlayer) := by
  simp only [moveUpdate]
  split
  · rfl
  · split <;> rfl

lemma moveUpdate_players (g : TicTacToeGame) (pos : Int) :
    (moveUpdate g pos).players = g.players := by
  simp only [moveUpdate]
  split
  · rfl
  · split <;> rfl

lemma moveUpdate_createdAt (g : TicTacToeGame) (pos : Int) :
    (moveUpdate g pos).createdAt = g.createdAt := by
  simp only [moveUpdate]
  split
  · rfl
  · split <;> rfl

lemma moveUpdate_of_win (g : TicTacToeGame) (pos : Int)
    (hw : checkWinner (g.board.set pos.toNat (some g.currentPlayer)) = true) :
    moveUpdate g pos =
      { g with board := g.board.set pos.toNat (some g.currentPlayer),
               winner := some (.winner g.currentPlayer), status := .finished } := by
  unfold moveUpdate
  rw [if_pos hw]

lemma moveUpdate_of_draw (g : TicTacToeGame) (pos : Int)
    (hw : ¬checkWinner (g.board.set pos.toNat (some g.currentPlayer)) = true)
    (ha : ((g.board.set pos.toNat (some g.currentPlayer)).all fun c => c.isSome) = true) :
    moveUpdate g pos =
      { g with board := g.board.set pos.toNat (some g.currentPlayer),
               status := .finished, winner := some .draw } := by
  unfold moveUpdate
  rw [if_neg hw, if_pos ha]

lemma moveUpdate_of_continue (g : TicTacToeGame) (pos : Int)
    (hw : ¬checkWinner (g.board.set pos.toNat (some g.currentPlayer)) = true)
    (ha : ¬((g.board.set pos.toNat (some g.currentPlayer)).all fun c => c.isSome) = true) :
    moveUpdate g pos =
      { g with board := g.board.set pos.toNat (some g.currentPlayer),
               currentPlayer := g.currentPlayer.other } := by
  unfold moveUpdate
  rw [if_neg hw, if_neg ha]

lemma addPlayer_eq_of_lt (g : TicTacToeGame) (pid pname : String)
    (h : g.players.length < 2) :
    g.addPlayer pid pname =
      (true,
        { g with
          players := g.players ++ [⟨pid, pname, if g.players.length = 0 then .X else .O⟩],
          status := if g.players.length + 1 = 2 then Status.playing else g.status }) := by
  unfold TicTacToeGame.addPlayer
  rw [if_pos h]
  simp

lemma addPlayer_eq_of_full (g : TicTacToeGame) (pid pname : String)
    (h : ¬g.players.length < 2) : g.addPlayer pid pname = (false, g) := by
  unfold TicTacToeGame.addPlayer
  rw [if_neg h]

lemma addPlayer_board (g : TicTacToeGame) (pid pname : String) :
    ((g.addPlayer pid pname).2).board = g.board := by
  unfold TicTacToeGame.addPlayer
  split <;> rfl

lemma addPlayer_winner (g : TicTacToeGame) (pid pname : String) :
    ((g.addPlayer pid pname).2).winner = g.winner := by
  unfold TicTacToeGame.addPlayer
  split <;> rfl

lemma runOps_nil (g : TicTacToeGame) : runOps g [] = g := rfl

lemma runOps_cons (g : TicTacToeGame) (op : Op) (ops : List Op) :
    runOps g (op :: ops) = runOps (applyOp g op) ops := rfl

lemma runOps_append (g : TicTacToeGame) (ops1 ops2 : List Op) :
    runOps g (ops1 ++ ops2) = runOps (runOps g ops1) ops2 := by
  simp [runOps, List.foldl_append]

lemma jsGet_eq_some_iff (b : List (Option Mark)) (pos : Int) (c : Option Mark) :
    jsGet b pos = some c ↔ 0 ≤ pos ∧ b[pos.toNat]? = some c := by
  unfold jsGet
  by_cases h0 : 0 ≤ pos <;> simp [h0]

/-- The inductive invariant of a session: the winner field is set exactly on
finished sessions, a non-waiting session has both players, and there are never
more than two players. -/
def SessionInv (g : TicTacToeGame) : Prop :=
  (g.winner = none ↔ g.status ≠ .finished) ∧
  (g.status ≠ .waiting → g.players.length = 2) ∧
  g.players.length ≤ 2

lemma inv_new (gid : String) (now : Nat) : SessionInv (TicTacToeGame.new gid now) := by
  refine ⟨by simp [TicTacToeGame.new], ?_, by simp [TicTacToeGame.new]⟩
  intro h
  exact absurd rfl h

lemma inv_step (g : TicTacToeGame) (op : Op) (h : SessionInv g) : SessionInv (applyOp g op) := by
  obtain ⟨h1, h2, h3⟩ := h
  cases op with
  | join pid pname =>
    simp only [applyOp]
    by_cases hl : g.players.length < 2
    · have hw : g.status = Status.waiting := by
        by_contra hs
        have := h2 hs
        omega
      rw [addPlayer_eq_of_lt g pid pname hl]
      refine ⟨?_, ?_, ?_⟩
      · show g.winner = none ↔ (if g.players.length + 1 = 2 then Status.playing else g.status) ≠ Status.finished
        rw [h1, hw]
        by_cases h2l : g.players.length + 1 = 2 <;> simp [h2l, hw]
      · show (if g.players.length + 1 = 2 then Status.playing else g.status) ≠ Status.waiting →
          (g.players ++ [(⟨pid, pname, if g.players.length = 0 then Mark.X else Mark.O⟩ : Player)]).length = 2
        by_cases h2l : g.players.length + 1 = 2 <;> simp [h2l, hw]
      · show (g.players ++ [(⟨pid, pname, if g.players.length = 0 then Mark.X else Mark.O⟩ : Player)]).length ≤ 2
        simp only [List.length_append, List.length_cons, List.length_nil]
        omega
    · rw [addPlayer_eq_of_full g pid pname hl]
      exact ⟨h1, h2, h3⟩
  | move pid pos =>
    simp only [applyOp]
    by_cases hok : moveOk g pid pos
    · rw [makeMove_accepted g pid pos hok]
      obtain ⟨hs, -, -⟩ := hok
      have hwin : g.winner = none := h1.mpr (by rw [hs]; simp)
      have hlen : g.players.length = 2 := h2 (by rw [hs]; simp)
      by_cases hw : checkWinner (g.board.set pos.toNat (some g.currentPlayer)) = true
      · rw [moveUpdate_of_win g pos hw]
        exact ⟨by simp, fun _ => hlen, h3⟩
      · by_cases ha : ((g.board.set pos.toNat (some g.currentPlayer)).all fun c => c.isSome) = true
        · rw [moveUpdate_of_draw g pos hw ha]
          exact ⟨by simp, fun _ => hlen, h3⟩
        · rw [moveUpdate_of_continue g pos hw ha]
          exact ⟨h1, h2, h3⟩
    · rw [makeMove_rejected g pid pos hok]
      exact ⟨h1, h2, h3⟩

lemma inv_runOps (g : TicTacToeGame) (ops : List Op) (h : SessionInv g) : SessionInv (runOps g ops) := by
  induction ops generalizing g with
  | nil => exact h
  | cons op ops ih => exact ih (applyOp g op) (inv_step g op h)

lemma applyOp_board_length (g : TicTacToeGame) (op : Op) :
    (applyOp g op).board.length = g.board.length := by
  cases op with
  | join pid pname =>
    simp only [applyOp]
    rw [addPlayer_board]
  | move pid pos =>
    simp only [applyOp]
    by_cases hok : moveOk g pid pos
    · rw [makeMove_accepted g pid pos hok, moveUpdate_board, List.length_set]
    · rw [makeMove_rejected g pid pos hok]

lemma runOps_board_length (g : TicTacToeGame) (ops : List Op) :
    (runOps g ops).board.length = g.board.length := by
  induction ops generalizing g with
  | nil => rfl
  | cons op ops ih => rw [runOps_cons, ih, applyOp_board_length]

lemma applyOp_board_persist (g : TicTacToeGame) (op : Op) (i : Nat) (m : Mark)
    (h : g.board[i]? = some (some m)) : (applyOp g op).board[i]? = some (some m) := by
  cases op with
  | join pid pname =>
    simp only [applyOp]
    rw [addPlayer_board]
    exact h
  | move pid pos =>
    simp only [applyOp]
    by_cases hok : moveOk g pid pos
    · rw [makeMove_accepted g pid pos hok, moveUpdate_board]
      obtain ⟨-, hcell, -⟩ := hok
      obtain ⟨h0, hcell'⟩ := (jsGet_eq_some_iff g.board pos none).mp hcell
      have hne : pos.toNat ≠ i := by
        intro he
        rw [he] at hcell'
        rw [hcell'] at h
        exact Option.noConfusion (Option.some.inj h)
      rw [List.getElem?_set_ne hne]
      exact h
    · rw [makeMove_rejected g pid pos hok]
      exact h

lemma runOps_board_persist (g : TicTacToeGame) (ops : List Op) (i : Nat) (m : Mark)
    (h : g.board[i]? = some (some m)) : (runOps g ops).board[i]? = some (some m) := by
  induction ops generalizing g with
  | nil => exact h
  | cons op ops ih => exact ih (applyOp g op) (applyOp_board_persist g op i m h)

lemma checkWinner_iff (b : List (Option Mark)) :
    checkWinner b = true ↔ ∃ pat ∈ winPatterns, ∃ m : Mark,
      b.getD pat.1 none = some m ∧ b.getD pat.2.1 none = some m ∧
        b.getD pat.2.2 none = some m := by
  unfold checkWinner
  rw [List.any_eq_true]
  refine exists_congr fun pat => and_congr_right fun _ => ?_
  cases hp : b.getD pat.1 none with
  | none => simp
  | some m0 => simp only [Bool.and_eq_true, beq_iff_eq, Option.some.injEq, exists_eq_left']

/-- A fresh session joined by two distinct participants `a` and `b`. -/
def gameTwoJoined : TicTacToeGame :=
  runOps (TicTacToeGame.new "g" 0) [.join "a" "A", .join "b" "B"]

/-- A two-player session where `X` (participant `a`) holds cells 0 and 1 and it
is `X`'s turn: playing cell 2 completes the top row. -/
def gameNearWin : TicTacToeGame :=
  runOps (TicTacToeGame.new "g" 0)
    [.join "a" "A", .join "b" "B", .move "a" 0, .move "b" 3, .move "a" 1, .move "b" 4]

/-- A fresh session joined by one participant `a`. -/
def gameOneJoined : TicTacToeGame :=
  runOps (TicTacToeGame.new "g" 0) [.join "a" "A"]

example : gameNearWin.board =
    [some .X, some .X, none, some .O, some .O, none, none, none, none] := by decide
example : gameNearWin.currentPlayer = Mark.X := by decide
example : (gameNearWin.makeMove "a" 2).1 = true := by decide

/-- C1: the create-session handler stores and returns a session with no
players: the request's participant is not joined (the handler never reads the
body), refuting `players.length = 1`. -/
theorem create_ignores_participant :
    (postCreateGame [] "g1" "p1" "Alice" 0).2.players.length = 0 ∧
    (postCreateGame [] "g1" "p1" "Alice" 0).2.status = Status.waiting ∧
    (postCreateGame [] "g1" "p1" "Alice" 0).1 = [("g1", TicTacToeGame.new "g1" 0)] ∧
    (TicTacToeGame.new "g1" 0).players.length = 0 := by
  refine ⟨rfl, rfl, rfl, rfl⟩

/-- C2 counterexample: a winning move concludes the session, yet the snapshot
object has no `concludedAt` key at all (only `createdAt`): no conclusion
timestamp is ever recorded. -/
theorem concluded_snapshot_lacks_conclusion_timestamp :
    (gameNearWin.makeMove "a" 2).1 = true ∧
    (gameNearWin.makeMove "a" 2).2.status = Status.finished ∧
    "concludedAt" ∉ GameState.keys ∧ "createdAt" ∈ GameState.keys := by
  refine ⟨by decide, by decide, by decide, by decide⟩

/-- C2 (amended): a successful concluding move sets `status`/`winner` but
records no conclusion timestamp: the session's only timestamp `createdAt` is
unchanged, and the snapshot exposes a `createdAt` key but no `concludedAt`
key. -/
theorem conclusion_records_no_timestamp (g : TicTacToeGame) (pid : String) (pos : Int)
    (h : (g.makeMove pid pos).1 = true) :
    (g.makeMove pid pos).2.createdAt = g.createdAt ∧
    ((g.makeMove pid pos).2.getState).createdAt = g.createdAt ∧
    ((g.makeMove pid pos).2.status = Status.finished → (g.makeMove pid pos).2.winner ≠ none) ∧
    "createdAt" ∈ GameState.keys ∧ "concludedAt" ∉ GameState.keys := by
  have hok := (makeMove_fst_true_iff g pid pos).mp h
  rw [makeMove_snd_of_accepted g pid pos h]
  refine ⟨moveUpdate_createdAt g pos, ?_, ?_, by decide, by decide⟩
  · show ((moveUpdate g pos).getState).createdAt = g.createdAt
    unfold TicTacToeGame.getState
    exact moveUpdate_createdAt g pos
  · by_cases hw : checkWinner (g.board.set pos.toNat (some g.currentPlayer)) = true
    · rw [moveUpdate_of_win g pos hw]
      intro
      simp
    · by_cases ha : ((g.board.set pos.toNat (some g.currentPlayer)).all fun c => c.isSome) = true
      · rw [moveUpdate_of_draw g pos hw ha]
        intro
        simp
      · rw [moveUpdate_of_continue g pos hw ha]
        intro hfin
        have hst : g.status = Status.finished := hfin
        rw [hok.1] at hst
        exact absurd hst (by simp)

theorem conclusion_records_no_timestamp_witness :
    (gameNearWin.makeMove "a" 2).2.createdAt = gameNearWin.createdAt ∧
    "concludedAt" ∉ GameState.keys :=
  ⟨(conclusion_records_no_timestamp gameNearWin "a" 2 (by decide)).1,
   (conclusion_records_no_timestamp gameNearWin "a" 2 (by decide)).2.2.2.2⟩

/-- C3: after an accepted move writes the mark, the session concludes with that
mark as outcome exactly when one of the 8 fixed triples (3 rows, 3 columns, 2
diagonals) holds three equal marks; otherwise it concludes as a draw when all
9 cells are filled; otherwise play continues. -/
theorem move_termination_check (g : TicTacToeGame) (pid : String) (pos : Int)
    (h : (g.makeMove pid pos).1 = true) :
    (g.makeMove pid pos).2.board = g.board.set pos.toNat (some g.currentPlayer) ∧
    (checkWinner (g.board.set pos.toNat (some g.currentPlayer)) = true ↔
      ∃ pat ∈ winPatterns, ∃ m : Mark,
        (g.board.set pos.toNat (some g.currentPlayer)).getD pat.1 none = some m ∧
        (g.board.set pos.toNat (some g.currentPlayer)).getD pat.2.1 none = some m ∧
        (g.board.set pos.toNat (some g.currentPlayer)).getD pat.2.2 none = some m) ∧
    (checkWinner (g.board.set pos.toNat (some g.currentPlayer)) = true →
      (g.makeMove pid pos).2.status = Status.finished ∧
      (g.makeMove pid pos).2.winner = some (Outcome.winner g.currentPlayer)) ∧
    (checkWinner (g.board.set pos.toNat (some g.currentPlayer)) = false →
      (∀ c ∈ g.board.set pos.toNat (some g.currentPlayer), c ≠ none) →
      (g.makeMove pid pos).2.status = Status.finished ∧
      (g.makeMove pid pos).2.winner = some Outcome.draw) ∧
    (checkWinner (g.board.set pos.toNat (some g.currentPlayer)) = false →
      ¬(∀ c ∈ g.board.set pos.toNat (some g.currentPlayer), c ≠ none) →
      (g.makeMove pid pos).2.status = Status.playing ∧
      (g.makeMove pid pos).2.winner = g.winner) := by
  have hok := (makeMove_fst_true_iff g pid pos).mp h
  rw [makeMove_snd_of_accepted g pid pos h]
  refine ⟨moveUpdate_board g pos, checkWinner_iff _, ?_, ?_, ?_⟩
  · intro hw
    rw [moveUpdate_of_win g pos hw]
    exact ⟨rfl, rfl⟩
  · intro hw hall
    have ha : ((g.board.set pos.toNat (some g.currentPlayer)).all fun c => c.isSome) = true :=
      List.all_eq_true.mpr fun c hc => Option.isSome_iff_ne_none.mpr (hall c hc)
    rw [moveUpdate_of_draw g pos (by simp [hw]) ha]
    exact ⟨rfl, rfl⟩
  · intro hw hnall
    have ha : ¬((g.board.set pos.toNat (some g.currentPlayer)).all fun c => c.isSome) = true := by
      intro hall
      exact hnall fun c hc => Option.isSome_iff_ne_none.mp (List.all_eq_true.mp hall c hc)
    rw [moveUpdate_of_continue g pos (by simp [hw]) ha]
    exact ⟨hok.1, rfl⟩

theorem move_termination_check_witness :
    (gameNearWin.makeMove "a" 2).2.status = Status.finished ∧
    (gameNearWin.makeMove "a" 2).2.winner = some (Outcome.winner gameNearWin.currentPlayer) :=
  (move_termination_check gameNearWin "a" 2 (by decide)).2.2.1 (by decide)

/-- C4: for an in-range cell index, a move is rejected exactly when the status
is not playing, or the target cell already holds a mark, or the submitting
participant's mark (none, for a participant not in the session) is not the
current turn; and every rejected move leaves the session unchanged. -/
theorem move_rejection_characterization (g : TicTacToeGame) (pid : String) (pos : Int)
    (h9 : g.board.length = 9) (h0 : 0 ≤ pos) (h8 : pos ≤ 8) :
    ((g.makeMove pid pos).1 = false ↔
      (g.status ≠ Status.playing ∨ g.board.getD pos.toNat none ≠ none ∨
        (g.players.find? fun p => p.id == pid).map Player.symbol ≠ some g.currentPlayer)) ∧
    ((g.makeMove pid pos).1 = false → (g.makeMove pid pos).2 = g) := by
  constructor
  · rw [makeMove_fst_false_iff]
    unfold moveOk
    have hlt : pos.toNat < g.board.length := by
      rw [h9]
      omega
    have hcell : jsGet g.board pos = some (g.board.getD pos.toNat none) := by
      unfold jsGet
      rw [if_pos h0, List.getElem?_eq_getElem hlt, List.getD_eq_getElem g.board none hlt]
    rw [hcell]
    simp only [not_and_or]
    constructor <;> intro hc <;> rcases hc with hc | hc | hc
    · exact Or.inl hc
    · refine Or.inr (Or.inl ?_)
      intro he
      exact hc (congrArg some he)
    · exact Or.inr (Or.inr hc)
    · exact Or.inl hc
    · refine Or.inr (Or.inl ?_)
      intro he
      exact hc (Option.some.inj he)
    · exact Or.inr (Or.inr hc)
  · exact makeMove_snd_of_rejected g pid pos

theorem move_rejection_characterization_witness :
    ((TicTacToeGame.new "g" 0).makeMove "a" 0).2 = TicTacToeGame.new "g" 0 :=
  (move_rejection_characterization (TicTacToeGame.new "g" 0) "a" 0
    (by decide) (by decide) (by decide)).2 (by decide)

/-- C5 counterexample: the winning move of `X` is accepted, yet afterwards
`currentPlayer` is still `X`, the mark that just played, not the other mark:
turn does not alternate on a concluding accepted move. -/
theorem winning_move_keeps_turn :
    (gameNearWin.makeMove "a" 2).1 = true ∧
    gameNearWin.currentPlayer = Mark.X ∧
    (gameNearWin.makeMove "a" 2).2.currentPlayer = Mark.X ∧
    Mark.X.other ≠ Mark.X := by
  refine ⟨by decide, by decide, by decide, by decide⟩

/-- C5 (amended): after an accepted move that leaves the game in progress,
turn is the other mark than the one just played; an accepted concluding move
leaves turn equal to the mark just played; and no rejected move changes
turn. -/
theorem turn_alternation_amended (g : TicTacToeGame) (pid : String) (pos : Int) :
    ((g.makeMove pid pos).1 = true → (g.makeMove pid pos).2.status = Status.playing →
      (g.makeMove pid pos).2.currentPlayer = g.currentPlayer.other) ∧
    ((g.makeMove pid pos).1 = true → (g.makeMove pid pos).2.status = Status.finished →
      (g.makeMove pid pos).2.currentPlayer = g.currentPlayer) ∧
    ((g.makeMove pid pos).1 = false → (g.makeMove pid pos).2.currentPlayer = g.currentPlayer) := by
  refine ⟨?_, ?_, ?_⟩
  · intro h hs
    have hok := (makeMove_fst_true_iff g pid pos).mp h
    rw [makeMove_snd_of_accepted g pid pos h] at hs ⊢
    by_cases hw : checkWinner (g.board.set pos.toNat (some g.currentPlayer)) = true
    · rw [moveUpdate_of_win g pos hw] at hs
      exact absurd hs (by simp)
    · by_cases ha : ((g.board.set pos.toNat (some g.currentPlayer)).all fun c => c.isSome) = true
      · rw [moveUpdate_of_draw g pos hw ha] at hs
        exact absurd hs (by simp)
      · rw [moveUpdate_of_continue g pos hw ha]
  · intro h hs
    have hok := (makeMove_fst_true_iff g pid pos).mp h
    rw [makeMove_snd_of_accepted g pid pos h] at hs ⊢
    by_cases hw : checkWinner (g.board.set pos.toNat (some g.currentPlayer)) = true
    · rw [moveUpdate_of_win g pos hw]
    · by_cases ha : ((g.board.set pos.toNat (some g.currentPlayer)).all fun c => c.isSome) = true
      · rw [moveUpdate_of_draw g pos hw ha]
      · rw [moveUpdate_of_continue g pos hw ha] at hs
        have hst : g.status = Status.finished := hs
        rw [hok.1] at hst
        exact absurd hst (by simp)
  · intro h
    rw [makeMove_snd_of_rejected g pid pos h]

theorem turn_alternation_amended_witness :
    (gameTwoJoined.makeMove "a" 0).2.currentPlayer = Mark.O := by
  have h := (turn_alternation_amended gameTwoJoined "a" 0).1 (by decide) (by decide)
  rw [h]
  decide

/-- C6: a join on a session that already has 2 players returns `false` and
leaves the session entirely unchanged, and no sequence of operations on a
fresh session ever produces more than 2 players. -/
theorem session_full_rejects_third_join (g : TicTacToeGame) (pid pname gid : String)
    (now : Nat) (ops : List Op) (h2 : g.players.length = 2) :
    g.addPlayer pid pname = (false, g) ∧
    (runOps (TicTacToeGame.new gid now) ops).players.length ≤ 2 := by
  constructor
  · exact addPlayer_eq_of_full g pid pname (by omega)
  · exact (inv_runOps (TicTacToeGame.new gid now) ops (inv_new gid now)).2.2

theorem session_full_rejects_third_join_witness :
    gameTwoJoined.players.length = 2 ∧
    gameTwoJoined.addPlayer "c" "C" = (false, gameTwoJoined) :=
  ⟨by decide,
   (session_full_rejects_third_join gameTwoJoined "c" "C" "g" 0 [] (by decide)).1⟩

/-- C7: over any sequence of join/move operations on a session created fresh,
a board cell that holds a mark after some prefix still holds that same mark
after any further operations: marked cells are never overwritten or cleared. -/
theorem marked_cell_persists (gid : String) (now : Nat) (ops1 ops2 : List Op)
    (i : Nat) (m : Mark)
    (h : (runOps (TicTacToeGame.new gid now) ops1).board[i]? = some (some m)) :
    (runOps (TicTacToeGame.new gid now) (ops1 ++ ops2)).board[i]? = some (some m) := by
  rw [runOps_append]
  exact runOps_board_persist _ ops2 i m h

theorem marked_cell_persists_witness :
    (runOps (TicTacToeGame.new "g" 0)
      ([.join "a" "A", .join "b" "B", .move "a" 0] ++ [.move "b" 4])).board[0]? =
      some (some Mark.X) :=
  marked_cell_persists "g" 0 [.join "a" "A", .join "b" "B", .move "a" 0]
    [.move "b" 4] 0 Mark.X (by decide)

/-- C8: in every session reachable from creation by join/move operations, the
winner field is set exactly when the status is finished; while waiting or
playing it is absent. -/
theorem outcome_iff_concluded (gid : String) (now : Nat) (ops : List Op) :
    ((runOps (TicTacToeGame.new gid now) ops).winner ≠ none ↔
      (runOps (TicTacToeGame.new gid now) ops).status = Status.finished) ∧
    ((runOps (TicTacToeGame.new gid now) ops).status = Status.waiting ∨
      (runOps (TicTacToeGame.new gid now) ops).status = Status.playing →
      (runOps (TicTacToeGame.new gid now) ops).winner = none) := by
  have h := (inv_runOps (TicTacToeGame.new gid now) ops (inv_new gid now)).1
  constructor
  · constructor
    · intro hw
      by_contra hs
      exact hw (h.mpr hs)
    · intro hs hw
      exact (h.mp hw) hs
  · intro hcase
    apply h.mpr
    rcases hcase with hs | hs <;> rw [hs] <;> simp

/-- C9: `addPlayer` never checks participant identity: on a session whose only
player is participant `p` with mark X, a second join by the same `p` succeeds,
`p` occupies both marks, and the session switches to playing. -/
theorem duplicate_participant_join (g : TicTacToeGame) (p n1 n2 : String)
    (h : g.players = [⟨p, n1, Mark.X⟩]) :
    g.addPlayer p n2 =
      (true, { g with players := [⟨p, n1, Mark.X⟩, ⟨p, n2, Mark.O⟩],
                      status := Status.playing }) := by
  rw [addPlayer_eq_of_lt g p n2 (by simp [h])]
  rw [h]
  simp

theorem duplicate_participant_join_witness :
    gameOneJoined.addPlayer "a" "A2" =
      (true, { gameOneJoined with players := [⟨"a", "A", Mark.X⟩, ⟨"a", "A2", Mark.O⟩],
                                  status := Status.playing }) :=
  duplicate_participant_join gameOneJoined "a" "A" "A2" (by decide)

/-- C10: a move whose cell index lies outside 0..8 is rejected with the
session unchanged (the out-of-range read is not a null cell), and the board
of any session reachable from creation always has exactly 9 cells. -/
theorem out_of_range_move_rejected (g : TicTacToeGame) (pid gid : String) (pos : Int)
    (now : Nat) (ops : List Op) (h9 : g.board.length = 9)
    (hpos : pos < 0 ∨ 8 < pos) :
    g.makeMove pid pos = (false, g) ∧
    (runOps (TicTacToeGame.new gid now) ops).board.length = 9 := by
  constructor
  · apply makeMove_rejected
    intro hok
    obtain ⟨hs, hcell, hmap⟩ := hok
    obtain ⟨hge, hsome⟩ := (jsGet_eq_some_iff g.board pos none).mp hcell
    rcases hpos with hneg | hbig
    · omega
    · have hlen : g.board.length ≤ pos.toNat := by
        rw [h9]
        omega
      rw [List.getElem?_eq_none hlen] at hsome
      exact Option.noConfusion hsome
  · rw [runOps_board_length]
    simp [TicTacToeGame.new]

theorem out_of_range_move_rejected_witness :
    (TicTacToeGame.new "g" 0).makeMove "a" 9 = (false, TicTacToeGame.new "g" 0) :=
  (out_of_range_move_rejected (TicTacToeGame.new "g" 0) "a" "g" 9 0 []
    (by decide) (by decide)).1

theorem outcome_iff_concluded_witness :
    (runOps (TicTacToeGame.new "g" 0) [Op.join "a" "A"]).winner = none :=
  (outcome_iff_concluded "g" 0 [Op.join "a" "A"]).2 (Or.inl (by decide))
